import Mathlib

/-!
Verification of the conan client command layer (`conans/client/command.py`)
and the cache/remote synchronization behaviour exercised by
`conans/test/integration/export_sources_test.py`.

The Python code is shallowly embedded: machine words are `Nat` reduced
modulo `2 ^ 32`, byte strings are `List Nat`, fallible command paths
return `Except String` where an exception message models `ConanException`.
The SHA-1 and MD5 digests used by the code (build-folder naming in
`Command.test_package`, file checksums in manifests) are implemented
concretely so claims about digest values can be settled by evaluation.
-/

set_option maxRecDepth 100000

namespace Conan

/-- Reduce a natural number to a 32-bit machine word. -/
def w32 (n : Nat) : Nat := n % 4294967296

/-- Left-rotate the 32-bit word `n` by `b` bits. -/
def rotl (b n : Nat) : Nat :=
  w32 ((n % 4294967296) * 2 ^ b + (n % 4294967296) / 2 ^ (32 - b))

/-- Bitwise complement within 32 bits. -/
def bnot32 (n : Nat) : Nat := 4294967295 - n % 4294967296

/-- Big-endian 8-byte encoding of a 64-bit value. -/
def be64 (n : Nat) : List Nat :=
  [n / 2 ^ 56 % 256, n / 2 ^ 48 % 256, n / 2 ^ 40 % 256, n / 2 ^ 32 % 256,
   n / 2 ^ 24 % 256, n / 2 ^ 16 % 256, n / 2 ^ 8 % 256, n % 256]

/-- Little-endian 8-byte encoding of a 64-bit value. -/
def le64 (n : Nat) : List Nat :=
  [n % 256, n / 2 ^ 8 % 256, n / 2 ^ 16 % 256, n / 2 ^ 24 % 256,
   n / 2 ^ 32 % 256, n / 2 ^ 40 % 256, n / 2 ^ 48 % 256, n / 2 ^ 56 % 256]

/-- Big-endian 4-byte decoding into a 32-bit word. -/
def wordBE (b0 b1 b2 b3 : Nat) : Nat := b0 * 2 ^ 24 + b1 * 2 ^ 16 + b2 * 2 ^ 8 + b3

/-- Little-endian 4-byte decoding into a 32-bit word. -/
def wordLE (b0 b1 b2 b3 : Nat) : Nat := b3 * 2 ^ 24 + b2 * 2 ^ 16 + b1 * 2 ^ 8 + b0

/-- Group a byte list into big-endian 32-bit words. -/
def toWordsBE : List Nat → List Nat
  | b0 :: b1 :: b2 :: b3 :: rest => wordBE b0 b1 b2 b3 :: toWordsBE rest
  | _ => []

/-- Group a byte list into little-endian 32-bit words. -/
def toWordsLE : List Nat → List Nat
  | b0 :: b1 :: b2 :: b3 :: rest => wordLE b0 b1 b2 b3 :: toWordsLE rest
  | _ => []

/-- Merkle–Damgård padding: append `0x80`, zero bytes up to 56 mod 64, then
an 8-byte encoding of the bit length produced by `lenEnc`. -/
def mdPad (lenEnc : Nat → List Nat) (msg : List Nat) : List Nat :=
  let len := msg.length
  let zeros := (120 - (len + 1) % 64) % 64
  msg ++ [128] ++ List.replicate zeros 0 ++ lenEnc (len * 8)

/-- Split a byte list into 64-byte blocks (fuel-driven recursion). -/
def blocks64 : Nat → List Nat → List (List Nat)
  | 0, _ => []
  | _, [] => []
  | fuel + 1, l => l.take 64 :: blocks64 fuel (l.drop 64)

/-- One step of the SHA-1 message-schedule extension: append the rotated
xor of the words 3, 8, 14 and 16 positions back. -/
def sha1Extend : List Nat → Nat → List Nat
  | ws, 0 => ws
  | ws, k + 1 =>
    let n := ws.length
    let t := rotl 1 ((ws.getD (n - 3) 0) ^^^ (ws.getD (n - 8) 0) ^^^
                    (ws.getD (n - 14) 0) ^^^ (ws.getD (n - 16) 0))
    sha1Extend (ws ++ [t]) k

/-- Round function of SHA-1. -/
def sha1F (i b c d : Nat) : Nat :=
  if i < 20 then (b &&& c) ||| (bnot32 b &&& d)
  else if i < 40 then b ^^^ c ^^^ d
  else if i < 60 then (b &&& c) ||| (b &&& d) ||| (c &&& d)
  else b ^^^ c ^^^ d

/-- Round constants of SHA-1. -/
def sha1K (i : Nat) : Nat :=
  if i < 20 then 1518500249
  else if i < 40 then 1859775393
  else if i < 60 then 2400959708
  else 3395469782

/-- One SHA-1 round on the five-word working state. -/
def sha1Round (ws : List Nat) (st : Nat × Nat × Nat × Nat × Nat) (i : Nat) :
    Nat × Nat × Nat × Nat × Nat :=
  let (a, b, c, d, e) := st
  let temp := w32 (rotl 5 a + sha1F i b c d + e + sha1K i + ws.getD i 0)
  (temp, a, rotl 30 b, c, d)

/-- SHA-1 compression of one 64-byte block into the running hash state. -/
def sha1Compress (h : List Nat) (block : List Nat) : List Nat :=
  let ws := sha1Extend (toWordsBE block) 64
  let st := (List.range 80).foldl (sha1Round ws)
    (h.getD 0 0, h.getD 1 0, h.getD 2 0, h.getD 3 0, h.getD 4 0)
  [w32 (h.getD 0 0 + st.1), w32 (h.getD 1 0 + st.2.1), w32 (h.getD 2 0 + st.2.2.1),
   w32 (h.getD 3 0 + st.2.2.2.1), w32 (h.getD 4 0 + st.2.2.2.2)]

/-- SHA-1 digest of a byte list, as five 32-bit words. -/
def sha1Words (msg : List Nat) : List Nat :=
  let padded := mdPad be64 msg
  (blocks64 padded.length padded).foldl sha1Compress
    [1732584193, 4023233417, 2562383102, 271733878, 3285377520]

/-- Lowercase hexadecimal digit. -/
def hexDigit (n : Nat) : Char :=
  if n < 10 then Char.ofNat (48 + n) else Char.ofNat (87 + n)

/-- Eight-hex-digit big-endian rendering of a 32-bit word. -/
def hex8 (n : Nat) : List Char :=
  [hexDigit (n / 2 ^ 28 % 16), hexDigit (n / 2 ^ 24 % 16),
   hexDigit (n / 2 ^ 20 % 16), hexDigit (n / 2 ^ 16 % 16),
   hexDigit (n / 2 ^ 12 % 16), hexDigit (n / 2 ^ 8 % 16),
   hexDigit (n / 2 ^ 4 % 16), hexDigit (n % 16)]

/-- Byte list of an ASCII string. -/
def strBytes (s : String) : List Nat := s.data.map Char.toNat

/-- Hex digest of SHA-1 over an ASCII string, as `hashlib.sha1(x).hexdigest()`. -/
def sha1Hex (s : String) : String :=
  String.mk ((sha1Words (strBytes s)).flatMap hex8)

/-- MD5 round constants, `floor(2^32 * abs(sin(i + 1)))`. -/
def md5K : List Nat :=
  [3614090360, 3905402710, 606105819, 3250441966, 4118548399, 1200080426,
   2821735955, 4249261313, 1770035416, 2336552879, 4294925233, 2304563134,
   1804603682, 4254626195, 2792965006, 1236535329, 4129170786, 3225465664,
   643717713, 3921069994, 3593408605, 38016083, 3634488961, 3889429448,
   568446438, 3275163606, 4107603335, 1163531501, 2850285829, 4243563512,
   1735328473, 2368359562, 4294588738, 2272392833, 1839030562, 4259657740,
   2763975236, 1272893353, 4139469664, 3200236656, 681279174, 3936430074,
   3572445317, 76029189, 3654602809, 3873151461, 530742520, 3299628645,
   4096336452, 1126891415, 2878612391, 4237533241, 1700485571, 2399980690,
   4293915773, 2240044497, 1873313359, 4264355552, 2734768916, 1309151649,
   4149444226, 3174756917, 718787259, 3951481745]

/-- MD5 per-round left-rotation amounts. -/
def md5S : List Nat :=
  [7, 12, 17, 22, 7, 12, 17, 22, 7, 12, 17, 22, 7, 12, 17, 22,
   5, 9, 14, 20, 5, 9, 14, 20, 5, 9, 14, 20, 5, 9, 14, 20,
   4, 11, 16, 23, 4, 11, 16, 23, 4, 11, 16, 23, 4, 11, 16, 23,
   6, 10, 15, 21, 6, 10, 15, 21, 6, 10, 15, 21, 6, 10, 15, 21]

/-- MD5 round function and message-word index for round `i`. -/
def md5FG (i b c d : Nat) : Nat × Nat :=
  if i < 16 then ((b &&& c) ||| (bnot32 b &&& d), i)
  else if i < 32 then ((d &&& b) ||| (bnot32 d &&& c), (5 * i + 1) % 16)
  else if i < 48 then (b ^^^ c ^^^ d, (3 * i + 5) % 16)
  else (c ^^^ (b ||| bnot32 d), (7 * i) % 16)

/-- One MD5 round on the four-word working state. -/
def md5Round (ms : List Nat) (st : Nat × Nat × Nat × Nat) (i : Nat) :
    Nat × Nat × Nat × Nat :=
  let (a, b, c, d) := st
  let (f, g) := md5FG i b c d
  let tmp := w32 (f + a + md5K.getD i 0 + ms.getD g 0)
  (d, w32 (b + rotl (md5S.getD i 0) tmp), b, c)

/-- MD5 compression of one 64-byte block into the running hash state. -/
def md5Compress (h : List Nat) (block : List Nat) : List Nat :=
  let ms := toWordsLE block
  let a0 := h.getD 0 0
  let b0 := h.getD 1 0
  let c0 := h.getD 2 0
  let d0 := h.getD 3 0
  let (a, b, c, d) := (List.range 64).foldl (md5Round ms) (a0, b0, c0, d0)
  [w32 (a0 + a), w32 (b0 + b), w32 (c0 + c), w32 (d0 + d)]

/-- MD5 digest of a byte list, as four 32-bit words. -/
def md5Words (msg : List Nat) : List Nat :=
  let padded := mdPad le64 msg
  (blocks64 padded.length padded).foldl md5Compress
    [1732584193, 4023233417, 2562383102, 271733878]

/-- Eight-hex-digit little-endian (byte-wise) rendering of a 32-bit word,
matching how MD5 serializes its state words. -/
def hex8LE (n : Nat) : List Char :=
  [hexDigit (n / 2 ^ 4 % 16), hexDigit (n % 16),
   hexDigit (n / 2 ^ 12 % 16), hexDigit (n / 2 ^ 8 % 16),
   hexDigit (n / 2 ^ 20 % 16), hexDigit (n / 2 ^ 16 % 16),
   hexDigit (n / 2 ^ 28 % 16), hexDigit (n / 2 ^ 24 % 16)]

/-- Hex digest of MD5 over an ASCII string, as `conans.util.files.md5sum`
computes for a file with that content. -/
def md5Hex (s : String) : String :=
  String.mk ((md5Words (strBytes s)).flatMap hex8LE)

/-!
Embeddings of the helpers in `conans/client/command.py`.
-/

/-- Python truthiness of an optional list (`None` and `[]` are falsy), as used
by `args.options or []` and `if args.all or args.package`. -/
def pyTruthyList (o : Option (List String)) : Bool :=
  match o with
  | none => false
  | some l => l ≠ []

/-- Python `x or []` on an optional list. -/
def pyOrEmpty (o : Option (List String)) : List String :=
  match o with
  | none => []
  | some l => l

/-- Python truthiness of an optional string (`None` and `""` are falsy). -/
def pyTruthyStr (o : Option String) : Bool :=
  match o with
  | none => false
  | some s => s ≠ ""

/-- Python `a or b` on optional strings: the first operand when truthy,
otherwise the second. -/
def pyOrStr (a b : Option String) : Option String :=
  if pyTruthyStr a then a else b

/-- Split a character list at every occurrence of `sep`, as Python
`str.split(sep)` for a one-character separator. -/
def splitChar (sep : Char) : List Char → List Char → List (List Char)
  | [], acc => [acc.reverse]
  | c :: cs, acc =>
    if c = sep then acc.reverse :: splitChar sep cs []
    else splitChar sep cs (c :: acc)

/-- Python `s.split(sep)` for a one-character separator. -/
def pySplit (sep : Char) (s : String) : List String :=
  (splitChar sep s.data []).map String.mk

/-- Hash used by `Command.test_package` to name the build folder:
`hashlib.sha1("".join(options + settings).encode()).hexdigest()` over the raw
option and setting strings (`command.py`, line 280). -/
def testPackageSha (options settings : List String) : String :=
  sha1Hex (String.join (options ++ settings))

/-- The same hash starting from the raw argparse values, applying
`options = args.options or []` and `settings = args.settings or []`
(`command.py`, lines 277-278). -/
def testPackageShaArgs (options settings : Option (List String)) : String :=
  testPackageSha (pyOrEmpty options) (pyOrEmpty settings)

/-- Dynamic value returned by `Command._get_build_sources_parameter`: the
Python function returns `False`/`True`, the string `"outdated"`, or a list of
patterns. -/
inductive BuildSourcesResult where
  | boolVal (b : Bool)
  | strVal (s : String)
  | listVal (ps : List String)
  deriving DecidableEq, Repr

/-- Raw `--build` argument as seen by `_get_build_sources_parameter`: either
not a list (e.g. `None` when the flag is absent) or the list collected by the
`Extender` action. -/
inductive BuildParam where
  | notList
  | ofList (xs : List String)
  deriving DecidableEq, Repr

/-- Embedding of `Command._get_build_sources_parameter`
(`command.py`, lines 127-147). -/
def getBuildSourcesParameter : BuildParam → BuildSourcesResult
  | .notList => .boolVal false
  | .ofList xs =>
    if xs.length = 0 then .listVal ["*"]
    else if xs.length = 1 && xs.getD 0 "" == "never" then .boolVal false
    else if xs.length = 1 && xs.getD 0 "" == "missing" then .boolVal true
    else if xs.length = 1 && xs.getD 0 "" == "outdated" then .strVal "outdated"
    else .listVal (xs.map (fun refExpr => refExpr ++ "*"))

/-- Embedding of `Command._get_tuples_list_from_extender_arg`
(`command.py`, lines 99-107): validates every `key=value` item, raising
`ConanException` at the first item whose split on `=` does not have exactly
two chunks, then returns the pairs in input order. -/
def getTuplesListFromExtenderArg : Option (List String) →
    Except String (List (String × String))
  | none => .ok []
  | some its =>
    if its = [] then .ok []
    else
      match its.find? (fun it => (pySplit '=' it).length != 2) with
      | some bad => .error ("Invalid input \x27" ++ bad ++ "\x27, use \x27name=value\x27")
      | none => .ok (its.map (fun it =>
          ((pySplit '=' it).getD 0 "", (pySplit '=' it).getD 1 "")))

/-- Modelled from the spec: `RecipeReference` is `{name, version, user,
channel}`, all opaque strings, with canonical textual form
`name/version@user/channel` (spec §3). The class `ConanFileReference` lives in
`conans/model/ref.py`, which is not part of the available source. -/
structure ConanFileReference where
  name : String
  version : String
  user : String
  channel : String
  deriving DecidableEq, Repr

/-- Modelled from the spec: `ConanFileReference.loads` parses the canonical
textual form `name/version@user/channel` (spec §3); `none` models the parse
exception for any other shape. `conans/model/ref.py` is not part of the
available source. -/
def conanFileReferenceLoads (s : String) : Option ConanFileReference :=
  match pySplit '@' s with
  | [left, right] =>
    match pySplit '/' left, pySplit '/' right with
    | [n, v], [u, c] =>
      if n ≠ "" && v ≠ "" && u ≠ "" && c ≠ "" then some ⟨n, v, u, c⟩ else none
    | _, _ => none
  | _ => none

/-- Outcome of the branch of `Command.install` that handles `--all` and
`--package` (`command.py`, lines 411-417): either a `ConanException` or a call
`self._manager.download(reference, args.package, ...)`. -/
inductive InstallPackagesAction where
  | download (ref : ConanFileReference) (packageIds : List String)
  deriving DecidableEq, Repr

/-- Embedding of the `args.all or args.package` branch of `Command.install`
(`command.py`, lines 405-417): the reference argument is parsed with
`ConanFileReference.loads`; `--all` overwrites the package list with `[]`; an
empty or unparseable reference raises `ConanException` before any download. -/
def installPackagesDispatch (referenceArg : String) (allFlag : Bool)
    (packageArgs : Option (List String)) : Option (Except String InstallPackagesAction) :=
  let reference := conanFileReferenceLoads referenceArg
  if allFlag || pyTruthyList packageArgs then
    let packages : List String := if allFlag then [] else pyOrEmpty packageArgs
    match reference with
    | some r =>
      if referenceArg = "" then
        some (.error "Invalid package recipe reference. e.g., MyPackage/1.2@user/channel")
      else some (.ok (.download r packages))
    | none =>
      some (.error "Invalid package recipe reference. e.g., MyPackage/1.2@user/channel")
  else none

/-- A `--manifests`, `--manifests-interactive` or `--verify` argument as
argparse delivers it: absent (`None`), bare flag (the `const` default
`.conan_manifests`), or flag with an explicit folder. -/
inductive ManifestFlag where
  | absent
  | bare
  | withFolder (folder : String)
  deriving DecidableEq, Repr

/-- The `default_manifest_folder` constant of `Command.install`
(`command.py`, line 384). -/
def defaultManifestFolder : String := ".conan_manifests"

/-- Value of a manifest flag after argparse (`nargs="?"` with
`const=default_manifest_folder`). -/
def ManifestFlag.value : ManifestFlag → Option String
  | .absent => none
  | .bare => some defaultManifestFolder
  | .withFolder f => some f

/-- Posix `os.path.isabs`: the path starts with a slash. -/
def isAbs (s : String) : Bool :=
  match s.data with
  | c :: _ => c = '/'
  | [] => false

/-- Whether a path already ends with the posix separator. -/
def endsWithSlash (s : String) : Bool :=
  match s.data.getLast? with
  | some c => c = '/'
  | none => false

/-- Posix `os.path.join` for two components. -/
def osPathJoin (a b : String) : String :=
  if isAbs b then b
  else if a = "" || endsWithSlash a then a ++ b
  else a ++ "/" ++ b

/-- Manifest-related values handed to `self._manager.install`:
`manifest_folder`, `manifest_verify`, `manifest_interactive`. -/
structure ManifestSettings where
  folder : Option String
  verify : Bool
  interactive : Bool
  deriving DecidableEq, Repr

/-- Absolute-path resolution of the manifest folder (`command.py`, lines
433-438): a relative folder is joined onto the current path when the
reference parsed as a `ConanFileReference`, and onto the reference path
otherwise. -/
def resolvedManifestFolder (currentPath : String) (refIsRef : Bool) (refPath : String)
    (mf : String) : String :=
  if isAbs mf then mf
  else if refIsRef then osPathJoin currentPath mf
  else osPathJoin refPath mf

/-- Embedding of the manifest-argument handling of `Command.install`
(`command.py`, lines 426-442). `currentPath` is `os.getcwd()`; `refPath` is
the reference when it is a path rather than a `ConanFileReference` (`refIsRef`
distinguishes the two). -/
def resolveManifestSettings (currentPath : String) (refIsRef : Bool) (refPath : String)
    (verify manifests manifestsInteractive : Option String) :
    Except String ManifestSettings :=
  if pyTruthyStr manifests && pyTruthyStr manifestsInteractive then
    .error "Do not specify both manifests and manifests-interactive arguments"
  else if pyTruthyStr verify && (pyTruthyStr manifests || pyTruthyStr manifestsInteractive) then
    .error "Do not specify both \x27verify\x27 and \x27manifests\x27 or \x27manifests-interactive\x27 arguments"
  else
    let manifestFolder := pyOrStr verify (pyOrStr manifests manifestsInteractive)
    if pyTruthyStr manifestFolder then
      let mf := resolvedManifestFolder currentPath refIsRef refPath (manifestFolder.getD "")
      .ok ⟨some mf, verify.isSome, manifestsInteractive.isSome⟩
    else
      .ok ⟨manifestFolder, false, false⟩

/-- Modelled from the spec: `is_a_reference` from `conans/model/ref.py` (not
in the available source) recognizes a full recipe reference
`name/version@user/channel` as opposed to a glob pattern. -/
def isAReference (s : String) : Bool :=
  (conanFileReferenceLoads s).isSome

/-- Argument record of the call `self._manager.upload(...)` issued by
`Command.upload` (`command.py`, lines 823-826). -/
structure UploadCall where
  pattern : String
  package : Option String
  remote : Option String
  allPackages : Bool
  force : Bool
  confirm : Bool
  retry : Int
  retryWait : Int
  deriving DecidableEq, Repr

/-- Embedding of `Command.upload` (`command.py`, lines 796-826): argparse
gives `--retry` the default `2` and `--retry_wait` the default `5` when the
flags are absent, `-p` with a non-reference pattern raises `ConanException`,
and otherwise all values are forwarded unchanged to `self._manager.upload`. -/
def uploadCommand (pattern : String) (package remote : Option String)
    (allFlag force confirm : Bool) (retryArg retryWaitArg : Option Int) :
    Except String UploadCall :=
  let retry := retryArg.getD 2
  let retryWait := retryWaitArg.getD 5
  if pyTruthyStr package && !isAReference pattern then
    .error "-p parameter only allowed with a valid recipe reference, not with a pattern"
  else
    .ok ⟨pattern, package, remote, allFlag, force, confirm, retry, retryWait⟩

/-- Modelled from the spec: the RemoteSyncEngine retry policy (spec §4.6) —
transient transport failures are retried the caller-specified number of times
with the caller-specified delay, and after exhausting the retries the failure
is surfaced. The uploader (`conans/client/manager.py` and below) is not in
the available source. `succeeds i` tells whether the i-th attempt gets
through; `uploadAttempts succeeds i fuel` runs attempt `i` and then up to
`fuel` further attempts, returning the index of the first success. -/
def uploadAttempts (succeeds : Nat → Bool) : Nat → Nat → Option Nat
  | i, 0 => if succeeds i then some i else none
  | i, fuel + 1 => if succeeds i then some i else uploadAttempts succeeds (i + 1) fuel

/-- The whole retried upload: the initial attempt plus up to `retry` retries;
it succeeds at the first successful attempt (reporting its index and the
`retryWait`-second pauses accumulated before it) and surfaces the failure
when every attempt fails. -/
def uploadWithRetry (succeeds : Nat → Bool) (retry retryWait : Nat) :
    Except String (Nat × Nat) :=
  match uploadAttempts succeeds 0 retry with
  | some i => .ok (i, i * retryWait)
  | none => .error "Upload failed after the configured retries"

/-!
Spec-modelled state of the local cache and one remote, as exercised by
`conans/test/integration/export_sources_test.py`. The cache, manager and
remote-manager implementations (`conans/client/client_cache.py`,
`conans/client/manager.py`, `conans/client/remote_manager.py`) are not in the
available source, so the operations are modelled from the spec (§3, §4.4,
§4.6) at the granularity the tests observe: folders are association lists
from relative path to file content.
-/

/-- Checksums of a folder: the md5 digest of every file's content, keyed by
relative path (spec §3, Manifest). -/
def folderChecksums (files : List (String × String)) : List (String × String) :=
  files.map (fun pc => (pc.1, md5Hex pc.2))

/-- Modelled from the spec: the local cache entry of one recipe reference,
with its `export`, `source` and `package/<PackageID>` folders (spec §3,
Cache Entry); `none` models an absent folder. -/
structure CacheEntry where
  exportFiles : Option (List (String × String))
  sourceFiles : Option (List (String × String))
  packages : List (String × List (String × String))
  deriving DecidableEq, Repr

/-- Modelled from the spec: what one remote stores for a recipe reference —
the export archive and one archive per uploaded package (spec §3, §6). -/
structure RemoteEntry where
  exportFiles : Option (List (String × String))
  packages : List (String × List (String × String))
  deriving DecidableEq, Repr

/-- Combined local-cache and remote state for one recipe reference. -/
structure SyncState where
  cache : CacheEntry
  remote : RemoteEntry
  deriving DecidableEq, Repr

/-- The empty starting state: nothing cached, nothing on the remote. -/
def SyncState.empty : SyncState := ⟨⟨none, none, []⟩, ⟨none, []⟩⟩

/-- Modelled from the spec: `conan export` fully replaces the `export`
folder of the cache entry with the recipe files (spec §3, Lifecycle). -/
def exportOp (files : List (String × String)) (st : SyncState) : SyncState :=
  { st with cache := { st.cache with exportFiles := some files } }

/-- Modelled from the spec: building one PackageID (`install --build=missing`
with no binary available) populates `source` from the exported files via the
one-time source-stage callback and creates the `package/<PackageID>` folder
(spec §3, Lifecycle; `conans/client/manager.py` not in the available
source). -/
def buildPackageOp (pid : String) (pkgFiles : List (String × String))
    (st : SyncState) : SyncState :=
  match st.cache.exportFiles with
  | none => st
  | some ef =>
    { st with cache := { st.cache with
        sourceFiles := some ef,
        packages := st.cache.packages ++ [(pid, pkgFiles)] } }

/-- Modelled from the spec: `conan upload --all` pushes the export archive
and every built package archive to the remote (spec §4.6, upload). -/
def uploadAllOp (st : SyncState) : SyncState :=
  match st.cache.exportFiles with
  | none => st
  | some ef =>
    { st with remote := ⟨some ef, st.cache.packages⟩ }

/-- Modelled from the spec: `conan remove -f` destroys the whole local cache
entry (spec §3, Lifecycle: any cache entry may be fully destroyed). -/
def removeOp (st : SyncState) : SyncState :=
  { st with cache := ⟨none, none, []⟩ }

/-- Modelled from the spec: a plain `conan install` of a reference that needs
PackageID `pid` downloads the export archive and that package archive from
the remote, and does not populate `source` (spec §2 data flow, §4.6
download; the test asserts the source folder stays absent). When the recipe
is already in the cache nothing is fetched. -/
def installOp (pid : String) (st : SyncState) : SyncState :=
  match st.cache.exportFiles with
  | some _ => st
  | none =>
    match st.remote.exportFiles with
    | none => st
    | some ef =>
      { st with cache := { st.cache with
          exportFiles := some ef,
          packages := match st.remote.packages.lookup pid with
            | some pf => [(pid, pf)]
            | none => [] } }

/-- Modelled from the spec: a recipe manifest as `FileTreeManifest`
(`conans/model/manifest.py`, not in the available source): a wall-clock
timestamp plus the map from relative path to content checksum (spec §3,
Manifest). -/
structure RecipeManifest where
  time : Nat
  fileSums : List (String × String)
  deriving DecidableEq, Repr

/-- Modelled from the spec: `ManifestEngine.compute` — checksums every
tracked file of a folder (md5 of its content) and stamps the wall-clock time
supplied by the caller (spec §4.2). -/
def computeManifest (time : Nat) (files : List (String × String)) : RecipeManifest :=
  ⟨time, folderChecksums files⟩

/-- Modelled from the spec: `checkUpdates` compares the local manifest
timestamp against the remote's and reports an available update when the
remote's is strictly newer, without applying anything (spec §4.6). -/
def checkUpdates (localM remoteM : RecipeManifest) : Bool :=
  remoteM.time > localM.time

/-- Outcome reported by `install --update` for an already-cached recipe. -/
inductive UpdateOutcome where
  | alreadyInstalled
  | updated
  | remoteNotNewer
  deriving DecidableEq, Repr

/-- Modelled from the spec: `install --update` on a cached recipe — when the
remote manifest's content equals the local one the recipe is reported
"Already installed!" and nothing changes; the changed files are fetched only
when the content differs and the remote timestamp is strictly newer
(spec §4.6 checkUpdates; behaviour pinned by
`ExportsSourcesTest.update_test`). -/
def installUpdateOp (localM remoteM : RecipeManifest) : UpdateOutcome × RecipeManifest :=
  if localM.fileSums = remoteM.fileSums then (.alreadyInstalled, localM)
  else if remoteM.time > localM.time then (.updated, remoteM)
  else (.remoteNotNewer, localM)

/-- One serialized manifest line, `relative/path: checksum`. -/
def manifestLine (pc : String × String) : String := pc.1 ++ ": " ++ pc.2

/-- The checksum entries of a manifest sorted by path. -/
def manifestSortedSums (m : RecipeManifest) : List (String × String) :=
  List.insertionSort (fun a b => a.1 ≤ b.1) m.fileSums

/-- The serialized per-file lines of a manifest, sorted by path. -/
def manifestLines (m : RecipeManifest) : List String :=
  (manifestSortedSums m).map manifestLine

/-- Join a list of lines with newline separators. -/
def joinLines : List String → String
  | [] => ""
  | [l] => l
  | l :: l2 :: ls => l ++ "\n" ++ joinLines (l2 :: ls)

/-- Modelled from the spec: the serialized text form of a manifest — a
leading timestamp line followed by one sorted `relative/path: checksum` line
per tracked file (spec §6; `conans/model/manifest.py` not in the available
source). -/
def manifestSerialize (m : RecipeManifest) : String :=
  joinLines (toString m.time :: manifestLines m)

/-- Python `str.splitlines()` for newline-separated text. -/
def pySplitlines (s : String) : List String := pySplit '\n' s

/-- The export files of the C3 scenario: a recipe with `{conanfile, hello.h}`. -/
def roundTripExports (c1 c2 : String) : List (String × String) :=
  [("conanfile.py", c1), ("hello.h", c2)]

/-- The C3 scenario up to the full local removal: export the recipe, build
one PackageID, upload with `--all`, then remove the local cache entry. -/
def roundTripRemoved (c1 c2 pid : String) (pkgFiles : List (String × String)) : SyncState :=
  removeOp (uploadAllOp (buildPackageOp pid pkgFiles
    (exportOp (roundTripExports c1 c2) SyncState.empty)))

/-- The C3 scenario after the subsequent plain install from the remote. -/
def roundTripFinal (c1 c2 pid : String) (pkgFiles : List (String × String)) : SyncState :=
  installOp pid (roundTripRemoved c1 c2 pid pkgFiles)

/-!
Helper lemmas shared by the claim theorems, and sanity checks of the digest
implementations against the standard test vectors.
-/

theorem sha1Hex_empty_vector : sha1Hex "" = "da39a3ee5e6b4b0d3255bfef95601890afd80709" := by
  decide

theorem sha1Hex_abc_vector : sha1Hex "abc" = "a9993e364706816aba3e25717850c26c9cd0d89d" := by
  decide

theorem md5Hex_hello_vector : md5Hex "hello" = "5d41402abc4b2a76b9719d911017c592" := by
  decide

theorem md5Hex_data_vector : md5Hex "data" = "8d777f385d3dfec8815d20f7496026dc" := by
  decide

theorem pySplit_examples :
    pySplit '=' "a=b=c" = ["a", "b", "c"] ∧ pySplit '=' "name" = ["name"] ∧
    pySplit '=' "=b" = ["", "b"] := by
  decide

theorem conanFileReferenceLoads_examples :
    conanFileReferenceLoads "Hello/0.1@lasote/testing" =
      some ⟨"Hello", "0.1", "lasote", "testing"⟩ ∧
    conanFileReferenceLoads "" = none ∧
    conanFileReferenceLoads "./my_project/" = none := by
  refine ⟨rfl, rfl, rfl⟩

theorem hex8_length (n : Nat) : (hex8 n).length = 8 := rfl

theorem sha1Compress_shape (h block : List Nat) :
    ∃ a b c d e, sha1Compress h block = [a, b, c, d, e] :=
  ⟨_, _, _, _, _, rfl⟩

theorem foldl_sha1Compress_shape (bs : List (List Nat)) :
    ∀ h : List Nat, (∃ a b c d e, h = [a, b, c, d, e]) →
      ∃ a b c d e, bs.foldl sha1Compress h = [a, b, c, d, e] := by
  induction bs with
  | nil => exact fun h hh => hh
  | cons b bs ih => exact fun h _ => ih (sha1Compress h b) (sha1Compress_shape h b)

theorem sha1Words_shape (msg : List Nat) :
    ∃ a b c d e, sha1Words msg = [a, b, c, d, e] := by
  unfold sha1Words
  exact foldl_sha1Compress_shape _ _ ⟨_, _, _, _, _, rfl⟩

theorem sha1Hex_length (s : String) : (sha1Hex s).length = 40 := by
  obtain ⟨a, b, c, d, e, h⟩ := sha1Words_shape (strBytes s)
  simp [sha1Hex, h, String.length, List.flatMap, hex8_length]

theorem splitChar_no_sep (sep : Char) :
    ∀ (cs acc : List Char), sep ∉ cs → splitChar sep cs acc = [acc.reverse ++ cs] := by
  intro cs
  induction cs with
  | nil => intro acc _; simp [splitChar]
  | cons c cs ih =>
    intro acc h
    have hc : ¬ c = sep := fun he => h (he ▸ List.mem_cons_self c cs)
    have hcs : sep ∉ cs := fun hm => h (List.mem_cons_of_mem c hm)
    simp only [splitChar, if_neg hc, ih (c :: acc) hcs, List.reverse_cons,
      List.append_assoc, List.cons_append, List.nil_append]

theorem splitChar_append_sep (sep : Char) :
    ∀ (cs rest acc : List Char), sep ∉ cs →
      splitChar sep (cs ++ sep :: rest) acc =
        (acc.reverse ++ cs) :: splitChar sep rest [] := by
  intro cs
  induction cs with
  | nil => intro rest acc _; simp [splitChar]
  | cons c cs ih =>
    intro rest acc h
    have hc : ¬ c = sep := fun he => h (he ▸ List.mem_cons_self c cs)
    have hcs : sep ∉ cs := fun hm => h (List.mem_cons_of_mem c hm)
    show splitChar sep (c :: (cs ++ sep :: rest)) acc = _
    simp only [splitChar, if_neg hc]
    show splitChar sep (cs ++ sep :: rest) (c :: acc) = _
    rw [ih rest (c :: acc) hcs]
    simp [List.reverse_cons, List.append_assoc]

theorem pySplit_joinLines (x : String) (ls : List String) :
    ('\n') ∉ x.data → (∀ s ∈ ls, ('\n') ∉ s.data) →
      pySplitlines (joinLines (x :: ls)) = x :: ls := by
  induction ls generalizing x with
  | nil =>
    intro hx _
    show (splitChar '\n' (joinLines [x]).data []).map String.mk = [x]
    rw [show joinLines [x] = x from rfl, splitChar_no_sep '\n' x.data [] hx]
    cases x
    simp
  | cons y ys ih =>
    intro hx hls
    show (splitChar '\n' (joinLines (x :: y :: ys)).data []).map String.mk = x :: y :: ys
    have hdata : (joinLines (x :: y :: ys)).data =
        x.data ++ '\n' :: (joinLines (y :: ys)).data := by
      show (x ++ "\n" ++ joinLines (y :: ys)).data = _
      simp [String.data_append]
    rw [hdata, splitChar_append_sep '\n' x.data _ [] hx]
    have hrest := ih y (hls y (List.mem_cons_self y ys))
      (fun s hs => hls s (List.mem_cons_of_mem y hs))
    simp only [List.map_cons, List.reverse_nil, List.nil_append]
    have hmk : String.mk x.data = x := by cases x; rfl
    rw [hmk]
    show x :: pySplitlines (joinLines (y :: ys)) = x :: y :: ys
    rw [hrest]

theorem find?_first_true {α : Type} (p : α → Bool) :
    ∀ (pre : List α) (bad : α) (post : List α),
      (∀ it ∈ pre, p it = false) → p bad = true →
      (pre ++ bad :: post).find? p = some bad := by
  intro pre
  induction pre with
  | nil => intro bad post _ hbad; simp [List.find?_cons, hbad]
  | cons a as ih =>
    intro bad post hpre hbad
    have ha : p a = false := hpre a (List.mem_cons_self a as)
    simp only [List.cons_append, List.find?_cons, ha]
    exact ih bad post (fun it hit => hpre it (List.mem_cons_of_mem a hit)) hbad

theorem uploadAttempts_first_success (succeeds : Nat → Bool) :
    ∀ (fuel start i : Nat), start ≤ i → i ≤ start + fuel → succeeds i = true →
      (∀ j, start ≤ j → j < i → succeeds j = false) →
      uploadAttempts succeeds start fuel = some i := by
  intro fuel
  induction fuel with
  | zero =>
    intro start i h1 h2 hs _
    have : start = i := Nat.le_antisymm h1 (by simpa using h2)
    subst this
    simp [uploadAttempts, hs]
  | succ fuel ih =>
    intro start i h1 h2 hs hfail
    by_cases hstart : start = i
    · subst hstart; simp [uploadAttempts, hs]
    · have hlt : start < i := Nat.lt_of_le_of_ne h1 hstart
      have hfs : succeeds start = false := hfail start (Nat.le_refl start) hlt
      simp only [uploadAttempts, hfs, Bool.false_eq_true, if_false]
      exact ih (start + 1) i hlt (by omega) hs
        (fun j hj1 hj2 => hfail j (Nat.le_of_succ_le hj1) hj2)

theorem uploadAttemptsFail (succeeds : Nat → Bool) :
    ∀ (fuel start : Nat), (∀ i, start ≤ i → i ≤ start + fuel → succeeds i = false) →
      uploadAttempts succeeds start fuel = none := by
  intro fuel
  induction fuel with
  | zero =>
    intro start h
    simp [uploadAttempts, h start (Nat.le_refl start) (by omega)]
  | succ fuel ih =>
    intro start h
    have hfs : succeeds start = false := h start (Nat.le_refl start) (by omega)
    simp only [uploadAttempts, hfs, Bool.false_eq_true, if_false]
    exact ih (start + 1) (fun i h1 h2 => h i (by omega) (by omega))

theorem isAbs_append (a b : String) (ha : isAbs a = true) : isAbs (a ++ b) = true := by
  obtain ⟨d⟩ := a
  cases d with
  | nil => simp [isAbs] at ha
  | cons c cs =>
    have hd : (String.mk (c :: cs) ++ b).data = c :: (cs ++ b.data) := by
      rw [String.data_append]
      rfl
    unfold isAbs at ha ⊢
    rw [hd]
    simpa using ha

theorem isAbs_osPathJoin (a b : String) (ha : isAbs a = true) :
    isAbs (osPathJoin a b) = true := by
  unfold osPathJoin
  split
  · assumption
  · split
    · exact isAbs_append a b ha
    · exact isAbs_append (a ++ "/") b (isAbs_append a "/" ha)

theorem isAbs_resolvedManifestFolder (cp rp mf : String) (rr : Bool)
    (hcp : isAbs cp = true) (hrp : isAbs rp = true) :
    isAbs (resolvedManifestFolder cp rr rp mf) = true := by
  unfold resolvedManifestFolder
  split
  · assumption
  · split
    · exact isAbs_osPathJoin cp mf hcp
    · exact isAbs_osPathJoin rp mf hrp

theorem getTuplesListFromExtenderArg_some (its : List String) :
    getTuplesListFromExtenderArg (some its) =
      (if its = [] then .ok []
       else
        match its.find? (fun it => (pySplit '=' it).length != 2) with
        | some bad => .error ("Invalid input \x27" ++ bad ++ "\x27, use \x27name=value\x27")
        | none => .ok (its.map (fun it =>
            ((pySplit '=' it).getD 0 "", (pySplit '=' it).getD 1 "")))) := rfl

/-!
Claim theorems.
-/

/-- C1, counterexample: configuration hashing in `Command.test_package` is
NOT order-invariant — the two configurations `["o=1", "p=2"]` and
`["p=2", "o=1"]` contain the same pairs in a different order, yet the sha1
digests over the concatenated strings differ, because no sorting happens
before joining and hashing. -/
theorem testPackageSha_order_counterexample :
    ¬ testPackageSha ["o=1", "p=2"] [] = testPackageSha ["p=2", "o=1"] [] := by decide

/-- C1, amended: the identity hash of `Command.test_package` is the sha1
digest of the options and settings strings concatenated in the order given,
with no sorting: any two configurations whose concatenated option and
setting strings coincide hash identically, but reordering the pairs may
change the digest. -/
theorem testPackageSha_concat_determined (o1 s1 o2 s2 : List String)
    (h : o1 ++ s1 = o2 ++ s2) : testPackageSha o1 s1 = testPackageSha o2 s2 := by
  unfold testPackageSha
  rw [h]

/-- C1, witness for the amended theorem: moving the boundary between options
and settings while keeping the concatenation fixed leaves the hash equal. -/
theorem testPackageSha_concat_determined_witness :
    testPackageSha ["o=1"] ["p=2"] = testPackageSha ["o=1", "p=2"] [] :=
  testPackageSha_concat_determined ["o=1"] ["p=2"] ["o=1", "p=2"] [] rfl

/-- C6: with no options and no settings, `Command.test_package` hashes the
empty string, always obtaining the same fixed-length 40-hex-character sha1
digest, without any error; moreover every configuration hash has that fixed
length. -/
theorem emptyConfig_stableSha :
    testPackageShaArgs none none = "da39a3ee5e6b4b0d3255bfef95601890afd80709" ∧
    (testPackageShaArgs none none).length = 40 ∧
    ∀ options settings : List String, (testPackageSha options settings).length = 40 := by
  refine ⟨by decide, by decide, ?_⟩
  intro o s
  exact sha1Hex_length (String.join (o ++ s))

/-- C2: `Command._get_build_sources_parameter` maps every raw `--build`
argument to exactly one of four variants — `False` for a non-list or
`["never"]`, `True` for `["missing"]`, the keyword `"outdated"` for
`["outdated"]`, the force-all pattern list `["*"]` for `[]`, and otherwise
the given expressions each suffixed with `"*"`; no other result is
possible. -/
theorem buildSourcesParameter_cases :
    getBuildSourcesParameter .notList = .boolVal false ∧
    getBuildSourcesParameter (.ofList ["never"]) = .boolVal false ∧
    getBuildSourcesParameter (.ofList ["missing"]) = .boolVal true ∧
    getBuildSourcesParameter (.ofList ["outdated"]) = .strVal "outdated" ∧
    getBuildSourcesParameter (.ofList []) = .listVal ["*"] ∧
    (∀ xs : List String, xs ≠ [] → xs ≠ ["never"] → xs ≠ ["missing"] → xs ≠ ["outdated"] →
      getBuildSourcesParameter (.ofList xs) = .listVal (xs.map (fun e => e ++ "*"))) ∧
    (∀ bp : BuildParam,
      getBuildSourcesParameter bp = .boolVal false ∨
      getBuildSourcesParameter bp = .boolVal true ∨
      getBuildSourcesParameter bp = .strVal "outdated" ∨
      ∃ ps : List String, getBuildSourcesParameter bp = .listVal ps) := by
  refine ⟨rfl, rfl, rfl, rfl, rfl, ?_, ?_⟩
  · intro xs h0 h1 h2 h3
    match xs with
    | [] => exact absurd rfl h0
    | [x] =>
      have hx1 : ¬ (x = "never") := fun h => h1 (by rw [h])
      have hx2 : ¬ (x = "missing") := fun h => h2 (by rw [h])
      have hx3 : ¬ (x = "outdated") := fun h => h3 (by rw [h])
      simp [getBuildSourcesParameter, hx1, hx2, hx3]
    | x :: y :: rest =>
      simp [getBuildSourcesParameter]
  · intro bp
    cases bp with
    | notList => exact .inl rfl
    | ofList xs =>
      unfold getBuildSourcesParameter
      repeat' split
      all_goals
        first
        | exact .inl rfl
        | exact .inr (.inl rfl)
        | exact .inr (.inr (.inl rfl))
        | exact .inr (.inr (.inr ⟨_, rfl⟩))

/-- C2, witness: a two-pattern `--build` argument is turned into force-build
patterns with the `*` suffix. -/
theorem buildSourcesParameter_cases_witness :
    getBuildSourcesParameter (.ofList ["Poco", "Boost"]) = .listVal ["Poco*", "Boost*"] :=
  buildSourcesParameter_cases.2.2.2.2.2.1 ["Poco", "Boost"] (by decide) (by decide)
    (by decide) (by decide)

/-- C9: `Command._get_tuples_list_from_extender_arg` returns `[]` for an
absent or empty argument list, returns the `(key, value)` pairs in input
order when every item splits on `=` into exactly two chunks, and raises a
`ConanException` naming the first offending item otherwise. -/
theorem tuplesListFromExtenderArg_spec :
    getTuplesListFromExtenderArg none = .ok [] ∧
    getTuplesListFromExtenderArg (some []) = .ok [] ∧
    (∀ items : List String, (∀ it ∈ items, (pySplit '=' it).length = 2) →
      getTuplesListFromExtenderArg (some items) =
        .ok (items.map fun it => ((pySplit '=' it).getD 0 "", (pySplit '=' it).getD 1 ""))) ∧
    (∀ (pre : List String) (bad : String) (post : List String),
      (∀ it ∈ pre, (pySplit '=' it).length = 2) → (pySplit '=' bad).length ≠ 2 →
      getTuplesListFromExtenderArg (some (pre ++ bad :: post)) =
        .error ("Invalid input \x27" ++ bad ++ "\x27, use \x27name=value\x27")) := by
  refine ⟨rfl, rfl, ?_, ?_⟩
  · intro items hgood
    rw [getTuplesListFromExtenderArg_some]
    by_cases h : items = []
    · subst h; rfl
    · rw [if_neg h]
      have hfind : items.find? (fun it => (pySplit '=' it).length != 2) = none :=
        List.find?_eq_none.mpr (fun x hx => by simp [hgood x hx])
      rw [hfind]
  · intro pre bad post hpre hbad
    rw [getTuplesListFromExtenderArg_some]
    have hne : pre ++ bad :: post ≠ [] := by simp
    rw [if_neg hne]
    have hfind : (pre ++ bad :: post).find? (fun it => (pySplit '=' it).length != 2) =
        some bad :=
      find?_first_true _ pre bad post (fun it hit => by simp [hpre it hit])
        (by simp [hbad])
    rw [hfind]

/-- C9, witness: an item without `=` is rejected with the exception naming
it, even though an earlier item is well-formed. -/
theorem tuplesListFromExtenderArg_spec_witness :
    getTuplesListFromExtenderArg (some ["a=1", "name", "a=b=c"]) =
      .error "Invalid input \x27name\x27, use \x27name=value\x27" :=
  tuplesListFromExtenderArg_spec.2.2.2 ["a=1"] "name" ["a=b=c"] (by decide) (by decide)

/-- C8: when `conan install` is invoked with `--all` or at least one
`--package`, an empty or unparseable reference raises `ConanException`
before any download, a parseable full reference leads to exactly one
download call, and `--all` forces the package-ID list passed to the
download to be empty. -/
theorem installPackagesDispatch_spec :
    (∀ (referenceArg : String) (allFlag : Bool) (packageArgs : Option (List String)),
      (allFlag || pyTruthyList packageArgs) = true →
      conanFileReferenceLoads referenceArg = none →
      installPackagesDispatch referenceArg allFlag packageArgs =
        some (.error "Invalid package recipe reference. e.g., MyPackage/1.2@user/channel")) ∧
    (∀ (allFlag : Bool) (packageArgs : Option (List String)),
      (allFlag || pyTruthyList packageArgs) = true →
      installPackagesDispatch "" allFlag packageArgs =
        some (.error "Invalid package recipe reference. e.g., MyPackage/1.2@user/channel")) ∧
    (∀ (referenceArg : String) (allFlag : Bool) (packageArgs : Option (List String))
       (r : ConanFileReference),
      (allFlag || pyTruthyList packageArgs) = true →
      conanFileReferenceLoads referenceArg = some r →
      installPackagesDispatch referenceArg allFlag packageArgs =
        some (.ok (.download r (if allFlag then [] else pyOrEmpty packageArgs)))) ∧
    (∀ (referenceArg : String) (packageArgs : Option (List String)) (r : ConanFileReference),
      conanFileReferenceLoads referenceArg = some r →
      installPackagesDispatch referenceArg true packageArgs =
        some (.ok (.download r []))) := by
  have hempty : conanFileReferenceLoads "" = none := rfl
  refine ⟨?_, ?_, ?_, ?_⟩
  · intro referenceArg allFlag packageArgs htruthy hnone
    simp [installPackagesDispatch, htruthy, hnone]
  · intro allFlag packageArgs htruthy
    simp [installPackagesDispatch, htruthy, hempty]
  · intro referenceArg allFlag packageArgs r htruthy hsome
    have hne : ¬ (referenceArg = "") := by
      intro he
      rw [he, hempty] at hsome
      cases hsome
    simp [installPackagesDispatch, htruthy, hsome, hne]
  · intro referenceArg packageArgs r hsome
    have hne : ¬ (referenceArg = "") := by
      intro he
      rw [he, hempty] at hsome
      cases hsome
    simp [installPackagesDispatch, hsome, hne]

/-- C8, witness: `install Hello/0.1@lasote/testing --all` with a `--package`
also given downloads with the forced-empty package-ID list. -/
theorem installPackagesDispatch_spec_witness :
    installPackagesDispatch "Hello/0.1@lasote/testing" true (some ["5ab84d6acfe1f2"]) =
      some (.ok (.download ⟨"Hello", "0.1", "lasote", "testing"⟩ [])) :=
  installPackagesDispatch_spec.2.2.2 "Hello/0.1@lasote/testing" (some ["5ab84d6acfe1f2"])
    ⟨"Hello", "0.1", "lasote", "testing"⟩ rfl

/-- C7: `Command.upload` forwards the caller's `--retry` and `--retry_wait`
values unchanged to the upload operation, defaulting to 2 retries and a
5-second wait when the flags are absent; the spec-modelled retried upload
succeeds at the first successful attempt within the budget and surfaces the
failure once the initial attempt and all `retry` retries fail. -/
theorem uploadRetryForwarding_spec :
    (∀ (pattern : String) (package remote : Option String) (allFlag force confirm : Bool)
       (retryArg retryWaitArg : Option Int) (call : UploadCall),
      uploadCommand pattern package remote allFlag force confirm retryArg retryWaitArg =
        .ok call →
      call.retry = retryArg.getD 2 ∧ call.retryWait = retryWaitArg.getD 5) ∧
    (∀ (pattern : String) (remote : Option String) (allFlag force confirm : Bool),
      uploadCommand pattern none remote allFlag force confirm none none =
        .ok ⟨pattern, none, remote, allFlag, force, confirm, 2, 5⟩) ∧
    (∀ (succeeds : Nat → Bool) (retry retryWait i : Nat),
      i ≤ retry → succeeds i = true → (∀ j < i, succeeds j = false) →
      uploadWithRetry succeeds retry retryWait = .ok (i, i * retryWait)) ∧
    (∀ (succeeds : Nat → Bool) (retry retryWait : Nat),
      (∀ i ≤ retry, succeeds i = false) →
      uploadWithRetry succeeds retry retryWait =
        .error "Upload failed after the configured retries") := by
  refine ⟨?_, ?_, ?_, ?_⟩
  · intro pattern package remote allFlag force confirm retryArg retryWaitArg call h
    unfold uploadCommand at h
    split at h
    · cases h
    · cases h
      exact ⟨rfl, rfl⟩
  · intro pattern remote allFlag force confirm
    rfl
  · intro succeeds retry retryWait i h1 hs hfail
    unfold uploadWithRetry
    rw [uploadAttempts_first_success succeeds retry 0 i (Nat.zero_le i) (by omega) hs
      (fun j _ hj => hfail j hj)]
  · intro succeeds retry retryWait h
    unfold uploadWithRetry
    rw [uploadAttemptsFail succeeds retry 0 (fun i _ h2 => h i (by omega))]

/-- C10: `Command.install` rejects conflicting manifest flags before any
work — `--manifests` together with `--manifests-interactive` raises a
`ConanException`, `--verify` together with either of them raises a
`ConanException`, and when exactly one of the three is given its folder
(the argparse `const` default `.conan_manifests` for a bare flag) is
resolved to an absolute path before being passed on. -/
theorem installManifestFlags_spec :
    (∀ (cp rp : String) (rr : Bool) (v : Option String) (m mi : ManifestFlag),
      pyTruthyStr m.value = true → pyTruthyStr mi.value = true →
      resolveManifestSettings cp rr rp v m.value mi.value =
        .error "Do not specify both manifests and manifests-interactive arguments") ∧
    (∀ (cp rp : String) (rr : Bool) (v m mi : ManifestFlag),
      pyTruthyStr v.value = true →
      (pyTruthyStr m.value = true ∨ pyTruthyStr mi.value = true) →
      ∃ msg, resolveManifestSettings cp rr rp v.value m.value mi.value = .error msg) ∧
    (∀ (cp rp : String) (rr : Bool) (flag : ManifestFlag),
      flag ≠ .absent → flag.value ≠ some "" → isAbs cp = true → isAbs rp = true →
      resolveManifestSettings cp rr rp flag.value none none =
        .ok ⟨some (resolvedManifestFolder cp rr rp (flag.value.getD "")), true, false⟩ ∧
      isAbs (resolvedManifestFolder cp rr rp (flag.value.getD "")) = true) ∧
    (∀ (cp rp : String) (rr : Bool) (flag : ManifestFlag),
      flag ≠ .absent → flag.value ≠ some "" → isAbs cp = true → isAbs rp = true →
      resolveManifestSettings cp rr rp none flag.value none =
        .ok ⟨some (resolvedManifestFolder cp rr rp (flag.value.getD "")), false, false⟩ ∧
      isAbs (resolvedManifestFolder cp rr rp (flag.value.getD "")) = true) ∧
    (∀ (cp rp : String) (rr : Bool) (flag : ManifestFlag),
      flag ≠ .absent → flag.value ≠ some "" → isAbs cp = true → isAbs rp = true →
      resolveManifestSettings cp rr rp none none flag.value =
        .ok ⟨some (resolvedManifestFolder cp rr rp (flag.value.getD "")), false, true⟩ ∧
      isAbs (resolvedManifestFolder cp rr rp (flag.value.getD "")) = true) ∧
    ManifestFlag.bare.value = some defaultManifestFolder := by
  refine ⟨?_, ?_, ?_, ?_, ?_, rfl⟩
  · intro cp rp rr v m mi hm hmi
    simp [resolveManifestSettings, hm, hmi]
  · intro cp rp rr v m mi hv hor
    by_cases h12 : (pyTruthyStr m.value && pyTruthyStr mi.value) = true
    · exact ⟨"Do not specify both manifests and manifests-interactive arguments",
        by simp [resolveManifestSettings, h12]⟩
    · refine ⟨"Do not specify both \x27verify\x27 and \x27manifests\x27 or \x27manifests-interactive\x27 arguments", ?_⟩
      rcases hor with hm | hmi
      · have h2 : pyTruthyStr mi.value = false := by simpa [hm] using h12
        simp [resolveManifestSettings, hv, hm, h2]
      · have h2 : pyTruthyStr m.value = false := by simpa [hmi] using h12
        simp [resolveManifestSettings, hv, hmi, h2]
  · intro cp rp rr flag hne hval hcp hrp
    refine ⟨?_, isAbs_resolvedManifestFolder cp rp _ rr hcp hrp⟩
    cases flag with
    | absent => exact absurd rfl hne
    | bare => rfl
    | withFolder f =>
      have hf : ¬ (f = "") := fun he => hval (by rw [he]; rfl)
      simp [resolveManifestSettings, ManifestFlag.value, pyTruthyStr, pyOrStr, hf]
  · intro cp rp rr flag hne hval hcp hrp
    refine ⟨?_, isAbs_resolvedManifestFolder cp rp _ rr hcp hrp⟩
    cases flag with
    | absent => exact absurd rfl hne
    | bare => rfl
    | withFolder f =>
      have hf : ¬ (f = "") := fun he => hval (by rw [he]; rfl)
      simp [resolveManifestSettings, ManifestFlag.value, pyTruthyStr, pyOrStr, hf]
  · intro cp rp rr flag hne hval hcp hrp
    refine ⟨?_, isAbs_resolvedManifestFolder cp rp _ rr hcp hrp⟩
    cases flag with
    | absent => exact absurd rfl hne
    | bare => rfl
    | withFolder f =>
      have hf : ¬ (f = "") := fun he => hval (by rw [he]; rfl)
      simp [resolveManifestSettings, ManifestFlag.value, pyTruthyStr, pyOrStr, hf]

/-- C10, witness: a bare `--manifests-interactive` flag with an absolute
current path resolves the default folder to an absolute path and sets the
interactive bit. -/
theorem installManifestFlags_spec_witness :
    resolveManifestSettings "/cwd" true "/tmp/proj" none none (ManifestFlag.bare.value) =
      .ok ⟨some "/cwd/.conan_manifests", false, true⟩ ∧
    isAbs "/cwd/.conan_manifests" = true := by
  exact installManifestFlags_spec.2.2.2.2.1 "/cwd" "/tmp/proj" true .bare (by decide)
    (by decide) (by decide) (by decide)

/-- C7, witness: with 2 retries and a 5-second wait, an upload whose first
attempt fails and whose second attempt succeeds reports success at attempt
index 1 after one 5-second pause. -/
theorem uploadRetryForwarding_spec_witness :
    uploadWithRetry (fun j => j == 1) 2 5 = .ok (1, 5) :=
  uploadRetryForwarding_spec.2.2.1 (fun j => j == 1) 2 5 1 (by decide) (by decide)
    (by decide)

/-- C4: `install --update` reports an already-cached recipe as
"Already installed!" and changes nothing when the remote manifest content
equals the local one (even for a strictly newer remote timestamp); it
fetches the remote state exactly when the content differs and the remote
timestamp is strictly newer; and `checkUpdates` reports an update available
precisely when the remote timestamp is strictly newer, without applying
anything. -/
theorem updateCheck_spec :
    (∀ localM remoteM : RecipeManifest, localM.fileSums = remoteM.fileSums →
      installUpdateOp localM remoteM = (.alreadyInstalled, localM)) ∧
    (∀ localM remoteM : RecipeManifest, localM.fileSums ≠ remoteM.fileSums →
      remoteM.time > localM.time →
      installUpdateOp localM remoteM = (.updated, remoteM)) ∧
    (∀ localM remoteM : RecipeManifest,
      (installUpdateOp localM remoteM).1 = .updated ↔
        (localM.fileSums ≠ remoteM.fileSums ∧ remoteM.time > localM.time)) ∧
    (∀ localM remoteM : RecipeManifest,
      (installUpdateOp localM remoteM).1 ≠ .updated →
        (installUpdateOp localM remoteM).2 = localM) ∧
    (∀ localM remoteM : RecipeManifest,
      checkUpdates localM remoteM = true ↔ remoteM.time > localM.time) := by
  refine ⟨?_, ?_, ?_, ?_, ?_⟩
  · intro l r h
    simp [installUpdateOp, h]
  · intro l r h1 h2
    simp [installUpdateOp, h1, h2]
  · intro l r
    unfold installUpdateOp
    split
    · rename_i heq
      simp [heq]
    · split
      · rename_i hne ht
        simp [hne, ht]
      · rename_i hne ht
        simp [hne, ht]
  · intro l r
    unfold installUpdateOp
    split
    · intro _; rfl
    · split
      · intro h; simp at h
      · intro _; rfl
  · intro l r
    simp [checkUpdates]

/-- C4, witness: identical manifest content with a strictly newer remote
timestamp is still reported "Already installed!" and nothing is fetched. -/
theorem updateCheck_spec_witness :
    installUpdateOp ⟨5, [("conanfile.py", "abcd")]⟩ ⟨9, [("conanfile.py", "abcd")]⟩ =
      (.alreadyInstalled, ⟨5, [("conanfile.py", "abcd")]⟩) :=
  updateCheck_spec.1 ⟨5, [("conanfile.py", "abcd")]⟩ ⟨9, [("conanfile.py", "abcd")]⟩ rfl

/-- C3: exporting a recipe with files `{conanfile, hello.h}`, building one
PackageID, uploading with `--all`, fully removing the local cache entry and
installing again restores the export folder and the package folder with
manifests matching the originals, while the source folder stays absent. -/
theorem exportRoundTrip_spec (c1 c2 pid : String) (pkgFiles : List (String × String)) :
    (roundTripRemoved c1 c2 pid pkgFiles).cache = ⟨none, none, []⟩ ∧
    (roundTripFinal c1 c2 pid pkgFiles).cache.exportFiles = some (roundTripExports c1 c2) ∧
    (roundTripFinal c1 c2 pid pkgFiles).cache.packages = [(pid, pkgFiles)] ∧
    (roundTripFinal c1 c2 pid pkgFiles).cache.sourceFiles = none ∧
    ((roundTripFinal c1 c2 pid pkgFiles).cache.exportFiles.getD []).map
        (fun pc => (pc.1, md5Hex pc.2)) =
      folderChecksums (roundTripExports c1 c2) ∧
    folderChecksums (((roundTripFinal c1 c2 pid pkgFiles).cache.packages.lookup pid).getD []) =
      folderChecksums pkgFiles := by
  refine ⟨rfl, ?_, ?_, ?_, ?_, ?_⟩ <;>
    simp [roundTripFinal, roundTripRemoved, roundTripExports, installOp, removeOp,
      uploadAllOp, buildPackageOp, exportOp, SyncState.empty, folderChecksums, List.lookup]

/-- C5: the serialized manifest splits into a leading timestamp line
followed by one `relative/path: checksum` line per tracked file, the lines
are sorted by path (a permutation of the tracked entries), recomputation
over unchanged content yields identical checksum lines whatever the new
timestamp, and a file `hello.h` with content `"hello"` always yields the
line `hello.h: 5d41402abc4b2a76b9719d911017c592`. -/
theorem manifestFormat_spec :
    (∀ m : RecipeManifest, (∀ l ∈ toString m.time :: manifestLines m, ('\n') ∉ l.data) →
      pySplitlines (manifestSerialize m) = toString m.time :: manifestLines m) ∧
    (∀ m : RecipeManifest,
      List.Sorted (fun a b : String × String => a.1 ≤ b.1) (manifestSortedSums m)) ∧
    (∀ m : RecipeManifest, (manifestSortedSums m).Perm m.fileSums) ∧
    (∀ m : RecipeManifest, manifestLines m =
      (manifestSortedSums m).map (fun pc => pc.1 ++ ": " ++ pc.2)) ∧
    (∀ (t t2 : Nat) (files : List (String × String)),
      manifestLines (computeManifest t files) = manifestLines (computeManifest t2 files)) ∧
    (∀ t : Nat, manifestLines (computeManifest t [("hello.h", "hello")]) =
      ["hello.h: 5d41402abc4b2a76b9719d911017c592"]) := by
  refine ⟨?_, ?_, ?_, ?_, ?_, ?_⟩
  · intro m hnl
    exact pySplit_joinLines (toString m.time) (manifestLines m)
      (hnl _ (List.mem_cons_self _ _)) (fun s hs => hnl s (List.mem_cons_of_mem _ hs))
  · intro m
    haveI : IsTotal (String × String) (fun a b : String × String => a.1 ≤ b.1) :=
      ⟨fun a b => le_total a.1 b.1⟩
    haveI : IsTrans (String × String) (fun a b : String × String => a.1 ≤ b.1) :=
      ⟨fun _ _ _ h1 h2 => le_trans h1 h2⟩
    exact List.sorted_insertionSort _ _
  · intro m
    exact List.perm_insertionSort _ _
  · intro m
    rfl
  · intro t t2 files
    rfl
  · intro t
    have ht : manifestLines (computeManifest t [("hello.h", "hello")]) =
        manifestLines (computeManifest 0 [("hello.h", "hello")]) := rfl
    rw [ht]
    decide

/-- C5, witness: a concrete one-file manifest serializes to the timestamp
line followed by its checksum line. -/
theorem manifestFormat_spec_witness :
    pySplitlines (manifestSerialize ⟨123,
        [("hello.h", "5d41402abc4b2a76b9719d911017c592")]⟩) =
      ["123", "hello.h: 5d41402abc4b2a76b9719d911017c592"] := by
  exact manifestFormat_spec.1 ⟨123, [("hello.h", "5d41402abc4b2a76b9719d911017c592")]⟩
    (by decide)

end Conan
